import Mathlib

/-!
Shallow embedding of `src/components/assistant/assistant-component.tsx`
from the lightweight-wanderlust repository.

The component is a React UI wrapping an assistant REST API and a map
widget.  We embed its pure logic: the run-activity predicate, the
tool-call dispatcher `executeAssistantActions` with its three map
handlers, the response handlers of each API operation (success and
error branches), and the run-status polling loop.

Modelling conventions:
  * React `useState` fields become the record `CState`; a `setX(v)` call
    becomes a functional record update (React batches value setters, the
    last write to a field wins, which sequential record update models).
  * Handlers read the `messages` state through a stale render closure
    (their `useCallback` dependency arrays do not include `messages`),
    so every handler takes the closure-captured list `c` as an explicit
    parameter instead of reading it from the state record.
  * An `axios` response continuation becomes a function from
    `Except String data` (error or parsed body) to a new state plus the
    list of follow-up HTTP requests it fires plus a flag recording
    whether the error branch logged.
  * `JSON.parse(action.function.arguments)` is modelled by storing the
    already-parsed argument record in the tool call; numbers are `ℚ`.
-/

namespace LWAssist

/-- Map center, from the `Center` shape used by the component
(`{ lat, lng }`). -/
structure Center where
  lat : ℚ
  lng : ℚ
deriving DecidableEq, Repr

/-- Map marker.  The `Marker` type lives in the external `@objects`
module (not under `src/`); the component never inspects its fields, so
it is modelled as an opaque payload. -/
structure Marker where
  payload : String
deriving DecidableEq, Repr

/-- Chat message.  Only the fields the component reads (`id`,
`created_at`) are structural; the rest of the external `Message` shape
is collapsed into `content`. -/
structure Message where
  id : String
  created_at : Int
  content : String
deriving DecidableEq, Repr

/-- Tool output submitted back to the API:
`{ tool_call_id: action.id, output: response }`. -/
structure ToolOutput where
  tool_call_id : String
  output : String
deriving DecidableEq, Repr

/-- Parsed JSON arguments of a tool call, holding every field the three
handlers read (`args.zoomLevel`, `args.latitude`, `args.longitude`,
`args.markers`, `args.centerLatitude`, `args.centerLongitude`). -/
structure Args where
  zoomLevel : ℚ
  latitude : ℚ
  longitude : ℚ
  markers : List Marker
  centerLatitude : ℚ
  centerLongitude : ℚ
deriving DecidableEq, Repr

/-- Field `function` of a tool call: a name and (parsed) arguments. -/
structure ToolFunction where
  name : String
  arguments : Args
deriving DecidableEq, Repr

/-- A tool call from `run.required_action.submit_tool_outputs.tool_calls`. -/
structure ToolCall where
  id : String
  type : String
  function : ToolFunction
deriving DecidableEq, Repr

/-- The `submit_tool_outputs` field of a required action. -/
structure SubmitOutputsField where
  tool_calls : List ToolCall
deriving DecidableEq, Repr

/-- The `required_action` field of a run. -/
structure RequiredAction where
  submit_tool_outputs : SubmitOutputsField
deriving DecidableEq, Repr

/-- A run resource, restricted to the fields the component reads:
`id`, `status`, `required_action` (nullable). -/
structure Run where
  id : String
  status : String
  required_action : Option RequiredAction
deriving DecidableEq, Repr

/-- The statuses in which a run counts as active, exactly the list
literal in `isRunActive`. -/
def activeStatuses : List String :=
  ["queued", "in_progress", "cancelling", "requires_action"]

/-- Predicate `isRunActive`: a run is active iff it is non-null and its status is
in `activeStatuses`. -/
def isRunActive : Option Run → Bool
  | none => false
  | some run => activeStatuses.contains run.status

/-- The component state held in `useState` hooks. -/
structure CState where
  mapCenter : Center
  pointsOfInterest : List Marker
  mapZoomLevel : ℚ
  userPrompt : String
  currentRun : Option Run
  messages : List Message
  assistantWriting : Bool
  loading : Bool
deriving DecidableEq, Repr

/-- The initial component state: the `useState` initial values
(San Francisco center, zoom 12, no markers, no run, loading). -/
def initialState : CState :=
  { mapCenter := { lat := 37.7749, lng := -122.4194 }
    pointsOfInterest := []
    mapZoomLevel := 12
    userPrompt := ""
    currentRun := none
    messages := []
    assistantWriting := false
    loading := true }

/-- Modelled from the spec: `generateAnnotation` lives in the external
`@objects` module (not under `src/`); the spec treats the chat history
as an external collaborator, so the produced message carries an
unspecified payload.  No claim depends on its value. -/
def genAnnotMsg (title kind : String) : Message :=
  { id := "annot-" ++ kind, created_at := 0, content := title }

/-- Handler `changeMapZoomLevel`: appends the zoom marker message to the
closure-captured messages `c`, sets the zoom level, and returns its
success string. -/
def changeMapZoomLevel (c : List Message) (zoomLevel : ℚ) (s : CState) :
    CState × String :=
  ({ s with
      messages := c ++ [genAnnotMsg "Updated Map" "zoom"]
      mapZoomLevel := zoomLevel },
   "Map mapZoomLevel level set successfully.")

/-- Handler `changeMapCenter`: appends the center marker message, sets the center
and the zoom level, and returns its success string. -/
def changeMapCenter (c : List Message) (latitude longitude zoomLevel : ℚ)
    (s : CState) : CState × String :=
  ({ s with
      messages := c ++ [genAnnotMsg "Updated Map" "center"]
      mapCenter := { lat := latitude, lng := longitude }
      mapZoomLevel := zoomLevel },
   "Map centered set successfully.")

/-- Handler `addLocationsToMap`: appends the mark marker message, sets the center,
the zoom level and the points of interest, and returns its success
string. -/
def addLocationsToMap (c : List Message) (locations : List Marker)
    (latitude longitude zoomLevel : ℚ) (s : CState) : CState × String :=
  ({ s with
      messages := c ++ [genAnnotMsg "Annotated Map" "mark"]
      mapCenter := { lat := latitude, lng := longitude }
      mapZoomLevel := zoomLevel
      pointsOfInterest := locations },
   "Map locations marked successfully.")

/-- One iteration of the `executeAssistantActions` loop: dispatch a
single tool call, returning the updated state and the optional pushed
output. -/
def execOne (c : List Message) (s : CState) (a : ToolCall) :
    CState × Option ToolOutput :=
  if a.type = "function" then
    let args := a.function.arguments
    if a.function.name = "changeMapZoomLevel" then
      let p := changeMapZoomLevel c args.zoomLevel s
      (p.1, some { tool_call_id := a.id, output := p.2 })
    else if a.function.name = "changeMapCenter" then
      let p := changeMapCenter c args.latitude args.longitude args.zoomLevel s
      (p.1, some { tool_call_id := a.id, output := p.2 })
    else if a.function.name = "addLocationsToMap" then
      let p := addLocationsToMap c args.markers args.centerLatitude
        args.centerLongitude args.zoomLevel s
      (p.1, some { tool_call_id := a.id, output := p.2 })
    else (s, none)
  else (s, none)

/-- The `executeAssistantActions` loop over the tool-call list,
threading the state and accumulating outputs in loop order. -/
def execList (c : List Message) (s : CState) :
    List ToolCall → CState × List ToolOutput
  | [] => (s, [])
  | a :: rest =>
    let p := execOne c s a
    let q := execList c p.1 rest
    (q.1, p.2.toList ++ q.2)

/-- Function `executeAssistantActions`: returns `[]` when `required_action` is
null, otherwise runs the dispatch loop over
`required_action.submit_tool_outputs.tool_calls`. -/
def executeAssistantActions (c : List Message) (run : Run) (s : CState) :
    CState × List ToolOutput :=
  match run.required_action with
  | none => (s, [])
  | some ra => execList c s ra.submit_tool_outputs.tool_calls

/-- Characterisation of the pushed output of a single tool call, stated
from the claims for comparison with the dispatcher: a `"function"` call
with one of the three handled names yields one output carrying the
id of the call and the success string of the matching handler; anything else
yields none. -/
def dispatchOutput (a : ToolCall) : Option ToolOutput :=
  if a.type = "function" then
    if a.function.name = "changeMapZoomLevel" then
      some { tool_call_id := a.id
             output := "Map mapZoomLevel level set successfully." }
    else if a.function.name = "changeMapCenter" then
      some { tool_call_id := a.id, output := "Map centered set successfully." }
    else if a.function.name = "addLocationsToMap" then
      some { tool_call_id := a.id
             output := "Map locations marked successfully." }
    else none
  else none

/-- HTTP requests the component can fire. -/
inductive Request where
  | getMessages : Request
  | getRuns : Request
  | getRunStatus : String → Request
  | postMessage : String → Request
  | submitToolOutputs : List ToolOutput → String → Request
deriving DecidableEq, Repr

/-- Result of running a response continuation: the new component state,
the follow-up requests it fires, and whether its catch branch logged an
error. -/
structure HResult where
  state : CState
  requests : List Request
  errorLogged : Bool
deriving DecidableEq, Repr

/-- Comparator of the sort call in `fetchMessages`,
`(a, b) => a.created_at - b.created_at`, as a Boolean `le`. -/
def createdAtLe (a b : Message) : Bool :=
  decide (a.created_at ≤ b.created_at)

/-- The in-place `sort` on the concatenated message list (a stable sort
by ascending `created_at`). -/
def sortByCreatedAt (ms : List Message) : List Message :=
  ms.mergeSort createdAtLe

/-- Response continuation of `fetchMessages`: filter the fetched
`newMessages` down to those whose id is absent from the closure list
`c`, store the sorted concatenation, and clear `assistantWriting`; the
catch branch only logs. -/
def fetchMessagesHandle (c : List Message)
    (r : Except String (Option (List Message))) (s : CState) : HResult :=
  match r with
  | .error _ => { state := s, requests := [], errorLogged := true }
  | .ok newMessages =>
    let s1 :=
      match newMessages with
      | some nm =>
        let missingMessages :=
          nm.filter (fun msg : Message => !(c.any (fun m => m.id == msg.id)))
        { s with messages := sortByCreatedAt (c ++ missingMessages) }
      | none => s
    { state := { s1 with assistantWriting := false }
      requests := []
      errorLogged := false }

/-- Response continuation of `fetchOpenRun`: when the latest run is
non-null and active it becomes the current run, and when its status is
`requires_action` the required actions are executed and their outputs
submitted; the catch branch only logs. -/
def fetchOpenRunHandle (c : List Message)
    (r : Except String (Option Run)) (s : CState) : HResult :=
  match r with
  | .error _ => { state := s, requests := [], errorLogged := true }
  | .ok latestRun =>
    match latestRun with
    | none => { state := s, requests := [], errorLogged := false }
    | some run =>
      if isRunActive (some run) then
        let s1 := { s with currentRun := some run }
        if run.status = "requires_action" then
          let p := executeAssistantActions c run s1
          { state := p.1
            requests := [Request.submitToolOutputs p.2 run.id]
            errorLogged := false }
        else { state := s1, requests := [], errorLogged := false }
      else { state := s, requests := [], errorLogged := false }

/-- Response continuation of `pollCurrentRunStatus`: store the run; if it
is no longer active fetch messages, else if it requires action execute
the actions and submit their outputs; the catch branch only logs. -/
def pollCurrentRunStatusHandle (c : List Message)
    (r : Except String Run) (s : CState) : HResult :=
  match r with
  | .error _ => { state := s, requests := [], errorLogged := true }
  | .ok run =>
    let s1 := { s with currentRun := some run }
    if !(isRunActive (some run)) then
      { state := s1, requests := [Request.getMessages], errorLogged := false }
    else if run.status = "requires_action" then
      let p := executeAssistantActions c run s1
      { state := p.1
        requests := [Request.submitToolOutputs p.2 run.id]
        errorLogged := false }
    else { state := s1, requests := [], errorLogged := false }

/-- Response continuation of `handlePromptSubmission`: append the
returned message, set the returned run as current, and mark the
assistant as writing; the catch branch only logs. -/
def handlePromptSubmissionHandle (c : List Message)
    (r : Except String (Message × Run)) (s : CState) : HResult :=
  match r with
  | .error _ => { state := s, requests := [], errorLogged := true }
  | .ok mr =>
    { state := { s with
        messages := c ++ [mr.1]
        currentRun := some mr.2
        assistantWriting := true }
      requests := []
      errorLogged := false }

/-- Response continuation of `submitFunctionOutputs`: store the returned
run as current; the catch branch only logs. -/
def submitFunctionOutputsHandle (r : Except String Run) (s : CState) :
    HResult :=
  match r with
  | .error _ => { state := s, requests := [], errorLogged := true }
  | .ok run =>
    { state := { s with currentRun := some run }
      requests := []
      errorLogged := false }

/-- Continuation of `hydrateMessages` after the chained fetches: clear
`loading` on success; the catch branch only logs. -/
def hydrateMessagesHandle (r : Except String Unit) (s : CState) : HResult :=
  match r with
  | .error _ => { state := s, requests := [], errorLogged := true }
  | .ok _ => { state := { s with loading := false }, requests := [], errorLogged := false }

/-- The fixed poll delay of `pollRunStatus`, in milliseconds. -/
def pollDelayMs : Nat := 2000

/-- Function `pollRunStatus`: schedule a timer (returning its delay) exactly when
the current run exists and is active. -/
def pollRunStatus (cur : Option Run) : Option Nat :=
  if cur.isSome && isRunActive cur then some pollDelayMs else none

/-- A possible sequence of poll responses: a response can only arrive
when `pollRunStatus` scheduled a timer for the current run, and each
response replaces the current run. -/
inductive ValidPolls : Option Run → List Run → Prop where
  | nil (cur : Option Run) : ValidPolls cur []
  | cons (cur : Option Run) (r : Run) (rs : List Run) :
      (pollRunStatus cur).isSome = true →
      ValidPolls (some r) rs →
      ValidPolls cur (r :: rs)

/-- Event-loop state of the polling machinery: the current run, whether
a poll timer is pending, and how many poll requests and tool-output
submissions are in flight. -/
structure PollSys where
  cur : Option Run
  pending : Bool
  pollsInflight : Nat
  submitsInflight : Nat
deriving DecidableEq, Repr

/-- The effect-cleanup function returned by `pollRunStatus`
(`() => clearTimeout(timeoutId)`): it clears the pending timer and
nothing else. -/
def effectCleanup (t : PollSys) : PollSys :=
  { t with pending := false }

/-- Atomic event-loop steps of the component, restricted to the events
that can occur while the assistant input is disabled: the poll timer
firing, a poll response, and a tool-output submission response.  Each
response runs its continuation and then the `useEffect`, which clears
the old timer and schedules a new one exactly when `pollRunStatus`
does. -/
inductive SysStep : PollSys → PollSys → Prop where
  | fire (t : PollSys) :
      t.pending = true → t.cur.isSome = true →
      SysStep t { t with pending := false, pollsInflight := t.pollsInflight + 1 }
  | fireNoRun (t : PollSys) :
      t.pending = true → t.cur = none →
      SysStep t { t with pending := false }
  | pollResponse (t : PollSys) (r : Run) :
      1 ≤ t.pollsInflight →
      SysStep t
        { cur := some r
          pending := (pollRunStatus (some r)).isSome
          pollsInflight := t.pollsInflight - 1
          submitsInflight :=
            if r.status = "requires_action" then t.submitsInflight + 1
            else t.submitsInflight }
  | submitResponse (t : PollSys) (r : Run) :
      1 ≤ t.submitsInflight →
      SysStep t
        { cur := some r
          pending := (pollRunStatus (some r)).isSome
          pollsInflight := t.pollsInflight
          submitsInflight := t.submitsInflight - 1 }

/-- The poll loop in isolation: only the timer firing and poll
responses, no submission responses interleaved. -/
inductive PollStep : PollSys → PollSys → Prop where
  | fire (t : PollSys) :
      t.pending = true → t.cur.isSome = true →
      PollStep t { t with pending := false, pollsInflight := t.pollsInflight + 1 }
  | fireNoRun (t : PollSys) :
      t.pending = true → t.cur = none →
      PollStep t { t with pending := false }
  | pollResponse (t : PollSys) (r : Run) :
      1 ≤ t.pollsInflight →
      PollStep t
        { cur := some r
          pending := (pollRunStatus (some r)).isSome
          pollsInflight := t.pollsInflight - 1
          submitsInflight :=
            if r.status = "requires_action" then t.submitsInflight + 1
            else t.submitsInflight }

/-- Reachability under the full event system. -/
inductive SysReach : PollSys → PollSys → Prop where
  | refl (t : PollSys) : SysReach t t
  | step (a b c : PollSys) : SysReach a b → SysStep b c → SysReach a c

/-- Reachability under the poll loop alone. -/
inductive PollReach : PollSys → PollSys → Prop where
  | refl (t : PollSys) : PollReach t t
  | step (a b c : PollSys) : PollReach a b → PollStep b c → PollReach a c

/-- Concrete run in status `queued`, used to evaluate the theorems. -/
def runQueued : Run :=
  { id := "run-1", status := "queued", required_action := none }

/-- Concrete run in status `completed` (inactive). -/
def runDone : Run :=
  { id := "run-1", status := "completed", required_action := none }

/-- Concrete run in status `requires_action` with an empty tool-call
list. -/
def runReq : Run :=
  { id := "run-1"
    status := "requires_action"
    required_action := some { submit_tool_outputs := { tool_calls := [] } } }

/-- Concrete message fixture. -/
def msgA : Message := { id := "a", created_at := 5, content := "x" }

/-- Concrete message fixture. -/
def msgB : Message := { id := "b", created_at := 3, content := "y" }

/-- Concrete unrecognised tool call (a type the dispatcher skips). -/
def skippedCall : ToolCall :=
  { id := "call-9"
    type := "code_interpreter"
    function :=
      { name := "doSomethingElse"
        arguments :=
          { zoomLevel := 1, latitude := 0, longitude := 0, markers := []
            centerLatitude := 0, centerLongitude := 0 } } }

/-! ## Helper lemmas -/

/-- The output pushed for a single tool call does not depend on the
state or the closure: it is `dispatchOutput`. -/
theorem execOne_snd (c : List Message) (s : CState) (a : ToolCall) :
    (execOne c s a).2 = dispatchOutput a := by
  unfold execOne dispatchOutput
  split
  · split
    · rfl
    · split
      · rfl
      · split
        · rfl
        · rfl
  · rfl

/-- The dispatch loop produces exactly the `filterMap` of
`dispatchOutput` over the tool calls. -/
theorem execList_snd (c : List Message) (s : CState) (ts : List ToolCall) :
    (execList c s ts).2 = ts.filterMap dispatchOutput := by
  induction ts generalizing s with
  | nil => rfl
  | cons a rest ih =>
    simp only [execList]
    rw [ih, execOne_snd]
    cases h : dispatchOutput a <;> simp [List.filterMap_cons, h]

/-- When `dispatchOutput` yields an output, it carries the id of the call. -/
theorem dispatchOutput_id (a : ToolCall) (o : ToolOutput) :
    dispatchOutput a = some o → o.tool_call_id = a.id := by
  unfold dispatchOutput
  intro h
  split at h
  · split at h
    · cases h; rfl
    · split at h
      · cases h; rfl
      · split at h
        · cases h; rfl
        · cases h
  · cases h

/-- Scheduling a poll timer coincides with the current run being
active. -/
theorem pollRunStatus_isSome (cur : Option Run) :
    (pollRunStatus cur).isSome = isRunActive cur := by
  cases cur with
  | none => rfl
  | some r => cases h : isRunActive (some r) <;> simp [pollRunStatus, h]

/-- A run whose status is `requires_action` is active. -/
theorem requires_action_isActive (run : Run) :
    run.status = "requires_action" → isRunActive (some run) = true := by
  intro h
  simp [isRunActive, activeStatuses, h]

/-! ## Claim theorems -/

/-- Claim C3: each tool call updates the map state it names —
`changeMapZoomLevel z` sets the zoom level to `z`;
`changeMapCenter lat lng z` sets the center to `{lat, lng}` and the
zoom level to `z`; `addLocationsToMap locs lat lng z` sets the points
of interest to `locs`, the center to `{lat, lng}` and the zoom level to
`z`; and each returns its success string. -/
theorem c3_handlers_update_named_state (c : List Message)
    (z lat lng zm : ℚ) (locs : List Marker) (s : CState) :
    ((changeMapZoomLevel c z s).1.mapZoomLevel = z ∧
      (changeMapZoomLevel c z s).2 =
        "Map mapZoomLevel level set successfully.") ∧
    ((changeMapCenter c lat lng zm s).1.mapCenter = { lat := lat, lng := lng } ∧
      (changeMapCenter c lat lng zm s).1.mapZoomLevel = zm ∧
      (changeMapCenter c lat lng zm s).2 = "Map centered set successfully.") ∧
    ((addLocationsToMap c locs lat lng zm s).1.pointsOfInterest = locs ∧
      (addLocationsToMap c locs lat lng zm s).1.mapCenter =
        { lat := lat, lng := lng } ∧
      (addLocationsToMap c locs lat lng zm s).1.mapZoomLevel = zm ∧
      (addLocationsToMap c locs lat lng zm s).2 =
        "Map locations marked successfully.") :=
  ⟨⟨rfl, rfl⟩, ⟨rfl, rfl, rfl⟩, ⟨rfl, rfl, rfl, rfl⟩⟩

/-- Claim C9: each handler leaves the map state it does not name
unchanged — `changeMapZoomLevel` keeps `mapCenter` and
`pointsOfInterest`; `changeMapCenter` keeps `pointsOfInterest`; and
`addLocationsToMap` replaces `pointsOfInterest` entirely with its
`locations` argument (independently of the previous markers). -/
theorem c9_handler_frame_conditions (c : List Message)
    (z lat lng zm : ℚ) (locs : List Marker) (s : CState) :
    ((changeMapZoomLevel c z s).1.mapCenter = s.mapCenter ∧
      (changeMapZoomLevel c z s).1.pointsOfInterest = s.pointsOfInterest) ∧
    ((changeMapCenter c lat lng zm s).1.pointsOfInterest =
      s.pointsOfInterest) ∧
    ((addLocationsToMap c locs lat lng zm s).1.pointsOfInterest = locs) :=
  ⟨⟨rfl, rfl⟩, rfl, rfl⟩

/-- Claim C6: for every API operation of the component, a network
failure runs only the catch branch: the error is logged, no follow-up
request is fired (so the operation is never retried), and the component
state — the only data the UI renders — is left unchanged. -/
theorem c6_errors_logged_state_unchanged (c : List Message) (s : CState)
    (e : String) :
    fetchMessagesHandle c (.error e) s =
      { state := s, requests := [], errorLogged := true } ∧
    fetchOpenRunHandle c (.error e) s =
      { state := s, requests := [], errorLogged := true } ∧
    pollCurrentRunStatusHandle c (.error e) s =
      { state := s, requests := [], errorLogged := true } ∧
    handlePromptSubmissionHandle c (.error e) s =
      { state := s, requests := [], errorLogged := true } ∧
    submitFunctionOutputsHandle (.error e) s =
      { state := s, requests := [], errorLogged := true } ∧
    hydrateMessagesHandle (.error e) s =
      { state := s, requests := [], errorLogged := true } :=
  ⟨rfl, rfl, rfl, rfl, rfl, rfl⟩

/-- Claim C7: the run-status poller is a fixed-interval loop — whenever
`pollRunStatus` schedules a timer the delay is exactly 2000 ms
(independent of any past failure or response, since scheduling depends
only on the activity of the current run), and the effect-cleanup function
clears the pending timer and nothing else. -/
theorem c7_fixed_interval_poller (cur : Option Run) (t : PollSys) :
    (pollRunStatus cur = none ∨ pollRunStatus cur = some 2000) ∧
    ((pollRunStatus cur).isSome = isRunActive cur) ∧
    ((effectCleanup t).pending = false ∧
      (effectCleanup t).cur = t.cur ∧
      (effectCleanup t).pollsInflight = t.pollsInflight ∧
      (effectCleanup t).submitsInflight = t.submitsInflight) := by
  refine ⟨?_, pollRunStatus_isSome cur, rfl, rfl, rfl, rfl⟩
  unfold pollRunStatus
  split
  · exact Or.inr rfl
  · exact Or.inl rfl

/-- Claim C2: `executeAssistantActions` dispatches on exactly the three
tool-function names `changeMapZoomLevel`, `changeMapCenter`,
`addLocationsToMap`: a single call step invokes the correspondingly
named handler with the parsed arguments and pushes one output with the
id of the call (and skips every other name), and over a whole tool-call list
the pushed outputs are exactly the per-call `dispatchOutput`s in list
order. -/
theorem c2_dispatch_three_names (c : List Message) (s : CState)
    (a : ToolCall) (ts : List ToolCall) :
    (execOne c s a =
      if a.type = "function" then
        if a.function.name = "changeMapZoomLevel" then
          ((changeMapZoomLevel c a.function.arguments.zoomLevel s).1,
            some { tool_call_id := a.id
                   output :=
                     (changeMapZoomLevel c a.function.arguments.zoomLevel s).2 })
        else if a.function.name = "changeMapCenter" then
          ((changeMapCenter c a.function.arguments.latitude
              a.function.arguments.longitude a.function.arguments.zoomLevel
              s).1,
            some { tool_call_id := a.id
                   output :=
                     (changeMapCenter c a.function.arguments.latitude
                       a.function.arguments.longitude
                       a.function.arguments.zoomLevel s).2 })
        else if a.function.name = "addLocationsToMap" then
          ((addLocationsToMap c a.function.arguments.markers
              a.function.arguments.centerLatitude
              a.function.arguments.centerLongitude
              a.function.arguments.zoomLevel s).1,
            some { tool_call_id := a.id
                   output :=
                     (addLocationsToMap c a.function.arguments.markers
                       a.function.arguments.centerLatitude
                       a.function.arguments.centerLongitude
                       a.function.arguments.zoomLevel s).2 })
        else (s, none)
      else (s, none)) ∧
    (execList c s ts).2 = ts.filterMap dispatchOutput :=
  ⟨rfl, execList_snd c s ts⟩

/-- Claim C1: for every run received in `fetchOpenRun` or
`pollCurrentRunStatus`, the map-mutation actions are executed and their
outputs submitted exactly when the status of the run is `requires_action`;
for any other status the state keeps its map fields (only `currentRun`
may change) and no outputs are submitted (a no-longer-active poll
response fetches messages instead). -/
theorem c1_actions_exactly_on_requires_action (c : List Message)
    (run : Run) (s : CState) :
    (fetchOpenRunHandle c (.ok (some run)) s =
      if run.status = "requires_action" then
        { state := (executeAssistantActions c run
            { s with currentRun := some run }).1
          requests := [Request.submitToolOutputs
            (executeAssistantActions c run
              { s with currentRun := some run }).2 run.id]
          errorLogged := false }
      else if isRunActive (some run) then
        { state := { s with currentRun := some run }
          requests := []
          errorLogged := false }
      else { state := s, requests := [], errorLogged := false }) ∧
    (fetchOpenRunHandle c (.ok none) s =
      { state := s, requests := [], errorLogged := false }) ∧
    (pollCurrentRunStatusHandle c (.ok run) s =
      if run.status = "requires_action" then
        { state := (executeAssistantActions c run
            { s with currentRun := some run }).1
          requests := [Request.submitToolOutputs
            (executeAssistantActions c run
              { s with currentRun := some run }).2 run.id]
          errorLogged := false }
      else if isRunActive (some run) then
        { state := { s with currentRun := some run }
          requests := []
          errorLogged := false }
      else
        { state := { s with currentRun := some run }
          requests := [Request.getMessages]
          errorLogged := false }) := by
  refine ⟨?_, rfl, ?_⟩
  · by_cases hra : run.status = "requires_action"
    · have hact := requires_action_isActive run hra
      simp [fetchOpenRunHandle, hra, hact]
    · cases hact : isRunActive (some run) <;>
        simp [fetchOpenRunHandle, hra, hact]
  · by_cases hra : run.status = "requires_action"
    · have hact := requires_action_isActive run hra
      simp [pollCurrentRunStatusHandle, hra, hact]
    · cases hact : isRunActive (some run) <;>
        simp [pollCurrentRunStatusHandle, hra, hact]

/-- Claim C8: `executeAssistantActions` yields one output per handled
`"function"` tool call, in the order of the `tool_calls` list (their
ids are the ids of the matching calls, in order); a call of another
type or with an unrecognised name is skipped with no output and no
state change; and a run with null `required_action` yields the empty
output list (and no state change). -/
theorem c8_outputs_order_and_skips (c : List Message) (s : CState)
    (run : Run) (a : ToolCall) (ts : List ToolCall) :
    (run.required_action = none →
      executeAssistantActions c run s = (s, [])) ∧
    ((a.type ≠ "function" ∨
        (a.function.name ≠ "changeMapZoomLevel" ∧
          a.function.name ≠ "changeMapCenter" ∧
          a.function.name ≠ "addLocationsToMap")) →
      execOne c s a = (s, none)) ∧
    ((execList c s ts).2.map ToolOutput.tool_call_id =
      (ts.filter (fun t => (dispatchOutput t).isSome)).map ToolCall.id) := by
  refine ⟨?_, ?_, ?_⟩
  · intro h
    unfold executeAssistantActions
    rw [h]
  · intro h
    rcases h with h | ⟨h1, h2, h3⟩
    · simp [execOne, h]
    · simp [execOne, h1, h2, h3]
  · rw [execList_snd]
    induction ts with
    | nil => rfl
    | cons b rest ih =>
      cases h : dispatchOutput b with
      | none => simp [List.filterMap_cons, List.filter_cons, h, ih]
      | some o =>
        have hid := dispatchOutput_id b o h
        simp [List.filterMap_cons, List.filter_cons, h, hid, ih]

/-- Claim C4 (amended): a poll timer is scheduled exactly while the
current run exists with status among `queued`, `in_progress`,
`cancelling`, `requires_action`; in the poll loop taken in isolation
(no stale submission response interleaved) only the last poll response
can carry an inactive run, so no further poll is scheduled after it;
and an inactive poll response triggers a message fetch instead. -/
theorem c4_polling_stops_when_inactive :
    (∀ cur : Option Run, (pollRunStatus cur).isSome = true ↔
      ∃ r, cur = some r ∧ r.status ∈ activeStatuses) ∧
    (∀ (cur : Option Run) (rs : List Run), ValidPolls cur rs →
      ∀ (i : Nat) (h : i + 1 < rs.length),
        isRunActive (some (rs.get ⟨i, Nat.lt_of_succ_lt h⟩)) = true) ∧
    (∀ (c : List Message) (run : Run) (s : CState),
      isRunActive (some run) = false →
      (pollCurrentRunStatusHandle c (.ok run) s).requests =
        [Request.getMessages]) := by
  refine ⟨?_, ?_, ?_⟩
  · intro cur
    rw [pollRunStatus_isSome]
    cases cur with
    | none => simp [isRunActive]
    | some r =>
      simp only [isRunActive]
      constructor
      · intro h
        exact ⟨r, rfl, by simpa using h⟩
      · rintro ⟨r2, heq, hmem⟩
        cases heq
        simpa using hmem
  · intro cur rs hv
    induction hv with
    | nil => intro i h; simp at h
    | cons cur r rs hsched hrest ih =>
      intro i h
      cases i with
      | zero =>
        cases hrest with
        | nil => simp at h
        | cons _ r2 rs2 hs2 _ =>
          rw [pollRunStatus_isSome] at hs2
          exact hs2
      | succ j =>
        exact ih j (Nat.lt_of_succ_lt_succ h)
  · intro c run s h
    simp [pollCurrentRunStatusHandle, h]

/-- Claim C4 witness: a concrete two-poll sequence whose non-final
response is active, and a concrete inactive response that triggers a
message fetch. -/
theorem c4_polling_stops_when_inactive_witness :
    isRunActive (some runQueued) = true ∧
    (pollCurrentRunStatusHandle [] (.ok runDone) initialState).requests =
      [Request.getMessages] := by
  have h := c4_polling_stops_when_inactive
  constructor
  · have hv : ValidPolls (some runQueued) [runQueued, runDone] := by
      refine ValidPolls.cons _ _ _ (by decide) ?_
      refine ValidPolls.cons _ _ _ (by decide) ?_
      exact ValidPolls.nil _
    exact h.2.1 (some runQueued) [runQueued, runDone] hv 0 (by decide)
  · exact h.2.2 [] runDone initialState (by decide)

/-- Claim C8 witness: a run with null `required_action` yields no
outputs and no state change, and a concrete non-`"function"` tool call
is skipped unchanged. -/
theorem c8_outputs_order_and_skips_witness :
    executeAssistantActions [] runQueued initialState = (initialState, []) ∧
    execOne [] initialState skippedCall = (initialState, none) := by
  have h := c8_outputs_order_and_skips [] initialState runQueued skippedCall []
  exact ⟨h.1 rfl, h.2.1 (Or.inl (by decide))⟩

/-- Claim C4 counterexample: after a poll response carrying an
inactive (`completed`) run — current run inactive, no timer pending,
one tool-output submission still in flight — the stale submission
response is a legitimate next event-loop step; it stores an active
(`queued`) run and a further poll timer is scheduled, refuting "once a
poll response carries a run outside these states, no further poll is
ever scheduled".  The inactive-response state is itself reachable from
an ordinary active polling state. -/
theorem c4_poll_rescheduled_after_inactive :
    SysReach
      { cur := some runQueued, pending := true, pollsInflight := 0
        submitsInflight := 0 }
      { cur := some runDone, pending := false, pollsInflight := 0
        submitsInflight := 1 } ∧
    isRunActive (some runDone) = false ∧
    SysStep
      { cur := some runDone, pending := false, pollsInflight := 0
        submitsInflight := 1 }
      { cur := some runQueued, pending := true, pollsInflight := 0
        submitsInflight := 0 } ∧
    ({ cur := some runQueued, pending := true, pollsInflight := 0
       submitsInflight := 0 } : PollSys).pending = true := by
  refine ⟨?_, by decide, ?_, rfl⟩
  · have s1 : SysStep
        { cur := some runQueued, pending := true, pollsInflight := 0
          submitsInflight := 0 }
        { cur := some runQueued, pending := false, pollsInflight := 1
          submitsInflight := 0 } :=
      SysStep.fire _ rfl rfl
    have s2 : SysStep
        { cur := some runQueued, pending := false, pollsInflight := 1
          submitsInflight := 0 }
        { cur := some runReq, pending := true, pollsInflight := 0
          submitsInflight := 1 } := by
      have h := SysStep.pollResponse
        { cur := some runQueued, pending := false, pollsInflight := 1
          submitsInflight := 0 } runReq (by decide)
      simpa [pollRunStatus, isRunActive, activeStatuses, runReq] using h
    have s3 : SysStep
        { cur := some runReq, pending := true, pollsInflight := 0
          submitsInflight := 1 }
        { cur := some runReq, pending := false, pollsInflight := 1
          submitsInflight := 1 } :=
      SysStep.fire _ rfl rfl
    have s4 : SysStep
        { cur := some runReq, pending := false, pollsInflight := 1
          submitsInflight := 1 }
        { cur := some runDone, pending := false, pollsInflight := 0
          submitsInflight := 1 } := by
      have h := SysStep.pollResponse
        { cur := some runReq, pending := false, pollsInflight := 1
          submitsInflight := 1 } runDone (by decide)
      simpa [pollRunStatus, isRunActive, activeStatuses, runDone] using h
    exact SysReach.step _ _ _
      (SysReach.step _ _ _
        (SysReach.step _ _ _
          (SysReach.step _ _ _ (SysReach.refl _) s1) s2) s3) s4
  · have h := SysStep.submitResponse
      { cur := some runDone, pending := false, pollsInflight := 0
        submitsInflight := 1 } runQueued (by decide)
    simpa [pollRunStatus, isRunActive, activeStatuses, runQueued] using h

/-- Claim C5 (amended): in the poll loop taken in isolation (timer
firings and poll responses only), at most one poll is ever in flight,
and a pending timer implies no poll is outstanding — the next timer is
scheduled only once the response of the previous poll has resolved. -/
theorem c5_single_poll_in_poll_loop (t0 t : PollSys)
    (h0 : t0.pollsInflight = 0) (hreach : PollReach t0 t) :
    t.pollsInflight ≤ 1 ∧ (t.pending = true → t.pollsInflight = 0) := by
  induction hreach with
  | refl => exact ⟨by omega, fun _ => h0⟩
  | step b c hab hstep ih =>
    cases hstep with
    | fire hp hcur =>
      have hz := ih.2 hp
      exact ⟨by simp [hz], by intro hx; simp at hx⟩
    | fireNoRun hp hcur =>
      have hz := ih.2 hp
      exact ⟨by simpa using ih.1, by intro hx; exact hz⟩
    | pollResponse r hge =>
      have h1 := ih.1
      refine ⟨by simp; omega, ?_⟩
      intro _
      simp
      omega

/-- Claim C5 witness: one fired poll starting from an idle pending
state stays within the single-poll bound. -/
theorem c5_single_poll_in_poll_loop_witness :
    ({ cur := some runQueued, pending := false, pollsInflight := 1
       submitsInflight := 0 } : PollSys).pollsInflight ≤ 1 := by
  have hr : PollReach
      { cur := some runQueued, pending := true, pollsInflight := 0
        submitsInflight := 0 }
      { cur := some runQueued, pending := false, pollsInflight := 1
        submitsInflight := 0 } := by
    refine PollReach.step _ _ _ (PollReach.refl _) ?_
    exact PollStep.fire _ rfl rfl
  exact (c5_single_poll_in_poll_loop _ _ rfl hr).1

/-- Claim C5 counterexample: the full event system admits an execution
with two polls in flight at once — a poll response in
`requires_action` fires a tool-output submission, the 2000 ms timer
fires a second poll, and the response of the submission (arriving while that
poll is still unresolved) reschedules the timer, whose firing starts a
third poll while the second is still in flight. -/
theorem c5_two_polls_in_flight :
    SysReach
      { cur := some runQueued, pending := true, pollsInflight := 0
        submitsInflight := 0 }
      { cur := some runQueued, pending := false, pollsInflight := 2
        submitsInflight := 0 } ∧
    ({ cur := some runQueued, pending := false, pollsInflight := 2
       submitsInflight := 0 } : PollSys).pollsInflight = 2 := by
  constructor
  · have s1 : SysStep
        { cur := some runQueued, pending := true, pollsInflight := 0
          submitsInflight := 0 }
        { cur := some runQueued, pending := false, pollsInflight := 1
          submitsInflight := 0 } :=
      SysStep.fire _ rfl rfl
    have s2 : SysStep
        { cur := some runQueued, pending := false, pollsInflight := 1
          submitsInflight := 0 }
        { cur := some runReq, pending := true, pollsInflight := 0
          submitsInflight := 1 } := by
      have h := SysStep.pollResponse
        { cur := some runQueued, pending := false, pollsInflight := 1
          submitsInflight := 0 } runReq (by decide)
      simpa [pollRunStatus, isRunActive, activeStatuses, runReq] using h
    have s3 : SysStep
        { cur := some runReq, pending := true, pollsInflight := 0
          submitsInflight := 1 }
        { cur := some runReq, pending := false, pollsInflight := 1
          submitsInflight := 1 } :=
      SysStep.fire _ rfl rfl
    have s4 : SysStep
        { cur := some runReq, pending := false, pollsInflight := 1
          submitsInflight := 1 }
        { cur := some runQueued, pending := true, pollsInflight := 1
          submitsInflight := 0 } := by
      have h := SysStep.submitResponse
        { cur := some runReq, pending := false, pollsInflight := 1
          submitsInflight := 1 } runQueued (by decide)
      simpa [pollRunStatus, isRunActive, activeStatuses, runQueued] using h
    have s5 : SysStep
        { cur := some runQueued, pending := true, pollsInflight := 1
          submitsInflight := 0 }
        { cur := some runQueued, pending := false, pollsInflight := 2
          submitsInflight := 0 } :=
      SysStep.fire _ rfl rfl
    exact SysReach.step _ _ _
      (SysReach.step _ _ _
        (SysReach.step _ _ _
          (SysReach.step _ _ _
            (SysReach.step _ _ _ (SysReach.refl _) s1) s2) s3) s4) s5
  · rfl

/-- The sort comparator is transitive. -/
theorem createdAtLe_trans (a b c : Message) :
    createdAtLe a b → createdAtLe b c → createdAtLe a c := by
  intro hab hbc
  simp only [createdAtLe, decide_eq_true_eq] at *
  omega

/-- The sort comparator is total. -/
theorem createdAtLe_total (a b : Message) :
    createdAtLe a b || createdAtLe b a := by
  simp only [createdAtLe]
  by_cases h : a.created_at ≤ b.created_at
  · simp [h]
  · simp [h]
    omega

/-- The sorted message list is pairwise ascending in `created_at`. -/
theorem sortByCreatedAt_pairwise (ms : List Message) :
    (sortByCreatedAt ms).Pairwise
      (fun a b => a.created_at ≤ b.created_at) := by
  have h := @List.sorted_mergeSort Message createdAtLe
    createdAtLe_trans createdAtLe_total ms
  exact h.imp (fun hab => by
    simpa only [createdAtLe, decide_eq_true_eq] using hab)

/-- Sorting permutes its input. -/
theorem sortByCreatedAt_perm (ms : List Message) :
    (sortByCreatedAt ms).Perm ms :=
  List.mergeSort_perm ms createdAtLe

/-- Claim C10: after a successful `fetchMessages` the stored message
list is sorted ascending by `created_at`; a fetched message whose id
already occurs in the prior list is not added again (its multiplicity
is unchanged); and ids stay pairwise distinct whenever the prior list
and the fetched `newMessages` each have distinct ids. -/
theorem c10_messages_sorted_and_distinct (c nm : List Message)
    (s : CState) :
    ((fetchMessagesHandle c (.ok (some nm)) s).state.messages.Pairwise
      (fun a b => a.created_at ≤ b.created_at)) ∧
    (∀ m : Message, (∃ x ∈ c, x.id = m.id) →
      (fetchMessagesHandle c (.ok (some nm)) s).state.messages.count m =
        c.count m) ∧
    ((c.map Message.id).Nodup → (nm.map Message.id).Nodup →
      ((fetchMessagesHandle c (.ok (some nm)) s).state.messages.map
        Message.id).Nodup) := by
  have hmsgs : (fetchMessagesHandle c (.ok (some nm)) s).state.messages =
      sortByCreatedAt (c ++ nm.filter
        (fun msg : Message => !(c.any (fun m => m.id == msg.id)))) := rfl
  set fl := nm.filter
    (fun msg : Message => !(c.any (fun m => m.id == msg.id))) with hfl
  have hperm :
      (fetchMessagesHandle c (.ok (some nm)) s).state.messages.Perm
        (c ++ fl) := by
    rw [hmsgs]
    exact sortByCreatedAt_perm _
  refine ⟨?_, ?_, ?_⟩
  · rw [hmsgs]
    exact sortByCreatedAt_pairwise _
  · rintro m ⟨x, hxc, hxid⟩
    rw [hperm.count_eq m, List.count_append]
    have hz : fl.count m = 0 := by
      rw [List.count_eq_zero]
      intro hmem
      have h2 := List.mem_filter.mp hmem
      have hany : c.any (fun m2 => m2.id == m.id) = true :=
        List.any_eq_true.mpr ⟨x, hxc, by simp [hxid]⟩
      rw [hany] at h2
      simp at h2
    rw [hz]
    omega
  · intro hc hnm
    have hpm := hperm.map Message.id
    rw [hpm.nodup_iff, List.map_append]
    have hfl2 : (fl.map Message.id).Nodup :=
      ((List.filter_sublist nm).map Message.id).nodup hnm
    refine List.Nodup.append hc hfl2 ?_
    intro a hac hafl
    rcases List.mem_map.mp hac with ⟨x, hxc, hxa⟩
    rcases List.mem_map.mp hafl with ⟨y, hyfl, hya⟩
    have h2 := List.mem_filter.mp hyfl
    have hany : c.any (fun m2 => m2.id == y.id) = true :=
      List.any_eq_true.mpr ⟨x, hxc, by simp [hxa, hya]⟩
    rw [hany] at h2
    simp at h2

/-- Claim C10 witness: with prior list `[msgA]` and fetched
`[msgA, msgB]`, the duplicate of `msgA` is not added again, the result
is sorted, and ids stay distinct. -/
theorem c10_messages_sorted_and_distinct_witness :
    ((fetchMessagesHandle [msgA] (.ok (some [msgA, msgB]))
        initialState).state.messages.count msgA =
      ([msgA] : List Message).count msgA) ∧
    (((fetchMessagesHandle [msgA] (.ok (some [msgA, msgB]))
        initialState).state.messages.map Message.id).Nodup) := by
  have h := c10_messages_sorted_and_distinct [msgA] [msgA, msgB]
    initialState
  exact ⟨h.2.1 msgA ⟨msgA, by simp, rfl⟩, h.2.2 (by decide) (by decide)⟩

end LWAssist
